import Mathlib

/-!
Verification of the real-time notification fan-out pipeline of the
qchang-tweet repository.

The development shallowly embeds the two source files the claims are about:

* `notification-service/cmd/main.go` — the websocket notification service:
  the connection registry (`ns.clients`, a Go `map[*websocket.Conn]bool`),
  the internal broadcast queue (`ns.broadcast`), the broadcaster loop
  `handleMessages`, and the per-connection handler `handleConnections`.

* `tweet/internal/post/service.go` — the comment-creation service method
  `CreateComment`, its notification construction (`json.Marshal` of a
  `map[string]string`), and the fire-and-forget `publishNotification` call.

Connections are identified by natural numbers.  The registry is modelled as
an association list `List (Nat × Bool)` (key = connection handle, value =
the membership flag the Go code stores); its order models Go's (arbitrary
but fixed-per-iteration) map iteration order.  Message payloads are opaque
`String`s.  External effects (database calls, broker publishes, websocket
writes) are injected as explicit outcome parameters, and the observable
behaviour (write attempts, closes, logs, publish calls) is recorded in
traces.
-/

namespace QchangTweet

/-- Opaque byte payload of a broadcast message (Go `[]byte`). -/
abbrev Msg := String

/-- One observable action of the broadcaster loop on a connection.
`wrote c m` records a `client.WriteMessage(TextMessage, m)` call that
succeeded; `failedWrite c m` records one that returned an error (after
which `main.go` closes `c` and deletes it from the registry). -/
inductive WEvent where
  | wrote (c : Nat) (m : Msg)
  | failedWrite (c : Nat) (m : Msg)
deriving DecidableEq, Repr

/-- The connection the event touched. -/
def WEvent.conn : WEvent → Nat
  | .wrote c _ => c
  | .failedWrite c _ => c

/-- The payload handed to `WriteMessage` in the event. -/
def WEvent.payload : WEvent → Msg
  | .wrote _ m => m
  | .failedWrite _ m => m

/-- State of the notification service (`NotificationService` in `main.go`)
together with the observation traces of the run. `clients` is the registry
`ns.clients`; `events` the ordered trace of `WriteMessage` calls; `closed`
the ordered trace of `client.Close()` calls made by the broadcaster. -/
structure NSState where
  clients : List (Nat × Bool)
  events : List WEvent
  closed : List Nat
deriving DecidableEq, Repr

/-- Outcome of a `client.WriteMessage` call: `w c m = true` iff writing
payload `m` to connection `c` succeeds.  The transport decides this; the
broadcaster only observes it. -/
abbrev WriteOracle := Nat → Msg → Bool

/-- Go `delete(ns.clients, client)`: remove the key from the registry map. -/
def registryDelete (c : Nat) (cs : List (Nat × Bool)) : List (Nat × Bool) :=
  cs.filter (fun p => p.1 ≠ c)

/-- Go `ns.clients[ws] = true`: map insert (overwrite if present). -/
def registryAdd (ws : Nat) (cs : List (Nat × Bool)) : List (Nat × Bool) :=
  if cs.any (fun p => p.1 = ws) then
    cs.map (fun p => if p.1 = ws then (ws, true) else p)
  else
    cs ++ [(ws, true)]

/-- The inner `for client := range ns.clients` loop of `handleMessages` in
`main.go` (lines 55–62), iterating over the list `l` of registry entries:
for each client attempt the write; on error, close the client and delete it
from the registry; on success, continue.  The failed write is not retried
and the loop continues with the remaining clients. -/
def dispatchList (w : WriteOracle) (m : Msg) : NSState → List (Nat × Bool) → NSState
  | st, [] => st
  | st, p :: rest =>
    if w p.1 m then
      dispatchList w m { st with events := st.events ++ [.wrote p.1 m] } rest
    else
      dispatchList w m
        { st with
          events := st.events ++ [.failedWrite p.1 m],
          clients := registryDelete p.1 st.clients,
          closed := st.closed ++ [p.1] } rest

/-- One cycle of `handleMessages`: dequeue `m` from `ns.broadcast` and
dispatch it to every entry of the registry.  (Go only deletes the key
currently being iterated, so the iterated entries are exactly the registry
entries at the start of the cycle.) -/
def dispatchMessage (w : WriteOracle) (st : NSState) (m : Msg) : NSState :=
  dispatchList w m st st.clients

/-- The broadcaster loop `handleMessages` (lines 52–64), run over the finite
queue `ms` of messages arriving on `ns.broadcast`, in enqueue order. -/
def handleMessages (w : WriteOracle) : NSState → List Msg → NSState
  | st, [] => st
  | st, m :: ms => handleMessages w (dispatchMessage w st m) ms

/-- The `WriteMessage` attempt `handleMessages` produces for registry entry
`p` when dispatching `m`. -/
def attemptEvent (w : WriteOracle) (m : Msg) (p : Nat × Bool) : WEvent :=
  if w p.1 m then .wrote p.1 m else .failedWrite p.1 m

/-- The messages successfully written to connection `c`, in trace order. -/
def deliveredTo (c : Nat) (evs : List WEvent) : List Msg :=
  evs.filterMap fun e =>
    match e with
    | .wrote c' m => if c' = c then some m else none
    | .failedWrite _ _ => none

/-! ### Closed forms for one dispatch cycle -/

theorem dispatchList_events (w : WriteOracle) (m : Msg) (st : NSState)
    (l : List (Nat × Bool)) :
    (dispatchList w m st l).events = st.events ++ l.map (attemptEvent w m) := by
  induction l generalizing st with
  | nil => simp [dispatchList]
  | cons p rest ih =>
    by_cases h : w p.1 m
    · simp [dispatchList, h, ih, attemptEvent]
    · simp [dispatchList, h, ih, attemptEvent]

theorem dispatchList_closed (w : WriteOracle) (m : Msg) (st : NSState)
    (l : List (Nat × Bool)) :
    (dispatchList w m st l).closed
      = st.closed ++ (l.filter (fun q => !(w q.1 m))).map Prod.fst := by
  induction l generalizing st with
  | nil => simp [dispatchList]
  | cons p rest ih =>
    by_cases h : w p.1 m
    · simp [dispatchList, h, ih]
    · simp [dispatchList, h, ih]

theorem dispatchList_clients (w : WriteOracle) (m : Msg) (st : NSState)
    (l : List (Nat × Bool)) :
    (dispatchList w m st l).clients
      = st.clients.filter
          (fun p => l.all (fun q => w q.1 m || decide (p.1 ≠ q.1))) := by
  induction l generalizing st with
  | nil => simp [dispatchList]
  | cons q rest ih =>
    by_cases h : w q.1 m
    · rw [dispatchList, if_pos h, ih]
      refine List.filter_congr ?_
      intro p _
      simp [h]
    · rw [dispatchList, if_neg h, ih]
      simp only [registryDelete, List.filter_filter]
      refine List.filter_congr ?_
      intro p _
      simp only [List.all_cons, h]
      cases hpq : decide (p.1 ≠ q.1) <;> simp [hpq]

/-- After one full cycle, the registry is exactly the old registry minus the
entries whose write failed: each surviving entry is unchanged (same flag). -/
theorem dispatchMessage_clients (w : WriteOracle) (st : NSState) (m : Msg) :
    (dispatchMessage w st m).clients = st.clients.filter (fun p => w p.1 m) := by
  rw [dispatchMessage, dispatchList_clients]
  refine List.filter_congr ?_
  intro p hp
  cases hw : w p.1 m
  · refine List.all_eq_false.mpr ?_
    exact ⟨p, hp, by simp [hw]⟩
  · refine List.all_eq_true.mpr ?_
    intro q hq
    by_cases hq1 : p.1 = q.1
    · simp [← hq1, hw]
    · simp [hq1]

theorem dispatchMessage_events (w : WriteOracle) (st : NSState) (m : Msg) :
    (dispatchMessage w st m).events
      = st.events ++ st.clients.map (attemptEvent w m) :=
  dispatchList_events w m st st.clients

theorem dispatchMessage_closed (w : WriteOracle) (st : NSState) (m : Msg) :
    (dispatchMessage w st m).closed
      = st.closed ++ (st.clients.filter (fun q => !(w q.1 m))).map Prod.fst :=
  dispatchList_closed w m st st.clients

/-! ### Connection handler (`handleConnections`, `main.go` lines 31–50) -/

/-- The read loop of `handleConnections` (lines 41–49), driven by the
sequence `reads` of `ws.ReadMessage` outcomes for connection `ws`.  Each
successful read pushes the received payload, unmodified, onto
`ns.broadcast`; the first read error logs, deletes `ws` from the registry
and breaks.  Returns the registry afterwards and the list of payloads
pushed onto the broadcast queue, in read order.  (If `reads` is exhausted
without error the Go loop would still be blocked reading; the registry is
then unchanged.) -/
def readLoop (ws : Nat) (cs : List (Nat × Bool)) :
    List (Except String Msg) → List (Nat × Bool) × List Msg
  | [] => (cs, [])
  | .ok m :: rest =>
    let r := readLoop ws cs rest
    (r.1, m :: r.2)
  | .error _ :: _ => (registryDelete ws cs, [])

/-- Result of one call to `handleConnections`.  `fatalExit = true` models
`log.Fatalf`, which (per its documentation) prints and then calls
`os.Exit(1)`, terminating the entire notification-service process —
registry, broadcaster loop and all other connections included. -/
structure HandleConnResult where
  fatalExit : Bool
  clients : List (Nat × Bool)
  queued : List Msg
deriving DecidableEq, Repr

/-- The handler `handleConnections` (lines 31–50): on upgrade failure the code calls
`log.Fatalf` (followed by an unreachable `return`); on success it inserts
the new connection into the registry and runs the read loop. -/
def handleConnections (cs : List (Nat × Bool)) (upgrade : Except String Nat)
    (reads : List (Except String Msg)) : HandleConnResult :=
  match upgrade with
  | .error _ => { fatalExit := true, clients := cs, queued := [] }
  | .ok ws =>
    let cs1 := registryAdd ws cs
    let r := readLoop ws cs1 reads
    { fatalExit := false, clients := r.1, queued := r.2 }

/-! ### Comment creation (`tweet/internal/post/service.go`) -/

/-- A created comment, as returned by `comment.NewComment`.  Its internals
are irrelevant to the notification pipeline; the service returns it
untouched. -/
structure Comment where
  id : String
  postID : String
  ownerID : String
  content : String
deriving DecidableEq, Repr

/-- A Go `error` value as observed by the service layer. -/
inductive GoError where
  | postNotFound
  | errMsg (s : String)
deriving DecidableEq, Repr

/-- Parameters of `Service.CreateComment` (UUIDs in their string form). -/
structure CreateCommentServiceParams where
  PostID : String
  OwnerID : String
  Content : String
deriving DecidableEq, Repr

/-- Outcomes of the external calls `CreateComment` makes, injected as data:
`existsRes` for `s.repo.Exists`, `newCommentRes` for `comment.NewComment`,
`createRes` for `s.commentRepo.Create` (`none` = success), `marshalRes` for
`json.Marshal` of the notification map (`none` = success), and
`publishRes` for `publishNotification` (`none` = success). -/
structure CreateCommentDeps where
  existsRes : Except GoError Bool
  newCommentRes : Except GoError Comment
  createRes : Option GoError
  marshalRes : Option GoError
  publishRes : Option GoError
deriving Repr

/-- A `log.Printf` call made by `CreateComment`. -/
inductive LogEntry where
  | publishFailed (e : GoError)
deriving DecidableEq, Repr

/-- Observable outcome of one `CreateComment` call: the returned value,
the log entries written, and the payloads handed to `publishNotification`
(in call order). -/
structure CreateCommentResult where
  result : Except GoError Comment
  logs : List LogEntry
  publishCalls : List Msg
deriving Repr

/-- The notification map built at `service.go` lines 196–201, listed in the
order Go's `json.Marshal` serializes map keys (sorted):
`message < postId < type < userId`. -/
def notificationFields (params : CreateCommentServiceParams) : List (String × String) :=
  [("message", "User " ++ params.OwnerID ++ " commented on your post"),
   ("postId", params.PostID),
   ("type", "comment"),
   ("userId", params.OwnerID)]

/-- Lower-case hex digit, as used by Go's `\uXXXX` escapes. -/
def hexDigit (n : Nat) : Char :=
  if n < 10 then Char.ofNat (48 + n) else Char.ofNat (87 + n)

/-- How Go's `encoding/json` (with its default HTML-escaping encoder)
renders one character inside a JSON string: `"`, `\` and the common control
characters get two-character escapes, the remaining control characters and
the HTML-sensitive `<`, `>`, `&` (plus U+2028/U+2029) get `\uXXXX`
escapes, everything else is emitted literally. -/
def goEscapeChar (c : Char) : List Char :=
  if c = '"' then ['\\', '"']
  else if c = '\\' then ['\\', '\\']
  else if c = '\n' then ['\\', 'n']
  else if c = '\r' then ['\\', 'r']
  else if c = '\t' then ['\\', 't']
  else if c.toNat < 0x20 ∨ c = '<' ∨ c = '>' ∨ c = '&'
          ∨ c.toNat = 0x2028 ∨ c.toNat = 0x2029 then
    ['\\', 'u', hexDigit (c.toNat / 4096 % 16), hexDigit (c.toNat / 256 % 16),
     hexDigit (c.toNat / 16 % 16), hexDigit (c.toNat % 16)]
  else [c]

/-- Escape a whole string the way Go's JSON encoder does. -/
def goEscapeString (s : String) : List Char :=
  (s.data.map goEscapeChar).flatten

/-- A JSON string literal: `"` ++ escaped contents ++ `"` (as characters). -/
def quoteChars (s : String) : List Char :=
  '"' :: goEscapeString s ++ ['"']

/-- One `"key":"value"` member of a JSON object (as characters). -/
def memberChars (kv : String × String) : List Char :=
  quoteChars kv.1 ++ ':' :: quoteChars kv.2

/-- Comma-join of rendered members. -/
def joinComma : List (List Char) → List Char
  | [] => []
  | [m] => m
  | m :: ms => m ++ ',' :: joinComma ms

/-- Compact JSON object over string fields, exactly as Go's `json.Marshal`
emits a `map[string]string` (no whitespace; the caller passes the fields
already in Go's sorted-key order). -/
def jsonObject (fields : List (String × String)) : String :=
  String.mk ('\x7b' :: joinComma (fields.map memberChars) ++ ['\x7d'])

/-- The call `json.Marshal(notification)` at `service.go` line 202 (success case). -/
def encodeNotification (params : CreateCommentServiceParams) : Msg :=
  jsonObject (notificationFields params)

/-- The notification event as §3 of the spec describes it, with the JSON
field names `type`, `postId`, `userId`, `message` of the wire payload. -/
structure NotificationEvent where
  kind : String
  postID : String
  actorID : String
  message : String
deriving DecidableEq, Repr

/-- A character that Go's JSON encoder emits literally (no escape).  Every
character of a UUID string (`0-9`, `a-f`, `-`) is plain. -/
def plainChar (c : Char) : Bool :=
  !(c = '"') && !(c = '\\') && !(c = '<') && !(c = '>') && !(c = '&')
    && decide (0x20 ≤ c.toNat) && !(c.toNat = 0x2028) && !(c.toNat = 0x2029)

/-- A string all of whose characters are emitted literally by the encoder. -/
def plainString (s : String) : Bool :=
  s.data.all plainChar

/-- Consumer-side parse of one JSON string literal (no escape sequences —
sufficient for payloads built from plain characters): expects `"`, takes
the contents up to the closing `"`, returns the contents and the rest of
the input. -/
def parseQuoted (s : List Char) : Option (List Char × List Char) :=
  match s with
  | [] => none
  | c :: rest =>
    if c = '"' then
      match rest.dropWhile (fun x => x ≠ '"') with
      | [] => none
      | c2 :: rest2 =>
        if c2 = '"' then some (rest.takeWhile (fun x => x ≠ '"'), rest2)
        else none
    else none

/-- Consume one expected character of input. -/
def expectChar (c : Char) : List Char → Option (List Char)
  | [] => none
  | x :: rest => if x = c then some rest else none

/-- Consumer-side parse of one `"key":"value"` member of a JSON object. -/
def parseMember (s : List Char) : Option ((String × String) × List Char) := do
  let (k, s1) ← parseQuoted s
  let s2 ← expectChar ':' s1
  let (v, s3) ← parseQuoted s2
  some ((String.mk k, String.mk v), s3)

/-- Consumer-side parse of the four-member JSON object the pipeline
transports: `{"k1":"v1","k2":"v2","k3":"v3","k4":"v4"}`. -/
def decodeFields (payload : Msg) : Option (List (String × String)) := do
  let s0 ← expectChar '\x7b' payload.data
  let (m1, s1) ← parseMember s0
  let s1' ← expectChar ',' s1
  let (m2, s2) ← parseMember s1'
  let s2' ← expectChar ',' s2
  let (m3, s3) ← parseMember s2'
  let s3' ← expectChar ',' s3
  let (m4, s4) ← parseMember s3'
  if s4 = ['\x7d'] then some [m1, m2, m3, m4] else none

/-- Consumer-side decoding of a notification payload into its event:
parse the JSON object and read the four named fields. -/
def decodeEvent (payload : Msg) : Option NotificationEvent :=
  match decodeFields payload with
  | none => none
  | some fields =>
    match fields.lookup "type", fields.lookup "postId",
          fields.lookup "userId", fields.lookup "message" with
    | some k, some p, some u, some msg =>
      some { kind := k, postID := p, actorID := u, message := msg }
    | _, _, _, _ => none

/-- The method `Service.CreateComment` (`service.go` lines 175–210).  Note two facts
taken directly from the source: the `json.Marshal` error is discarded
(`notificationMessage, _ := ...`), so on marshal failure the nil payload
(modelled as `""`) is still passed on; and a `publishNotification` error is
only logged — the comment is returned with a nil error regardless. -/
def createComment (d : CreateCommentDeps) (params : CreateCommentServiceParams) :
    CreateCommentResult :=
  match d.existsRes with
  | .error e => { result := .error e, logs := [], publishCalls := [] }
  | .ok ex =>
    if !ex then
      { result := .error .postNotFound, logs := [], publishCalls := [] }
    else
      match d.newCommentRes with
      | .error e => { result := .error e, logs := [], publishCalls := [] }
      | .ok cmt =>
        match d.createRes with
        | some e => { result := .error e, logs := [], publishCalls := [] }
        | none =>
          let notificationMessage : Msg :=
            match d.marshalRes with
            | none => encodeNotification params
            | some _ => ""
          match d.publishRes with
          | some e =>
            { result := .ok cmt,
              logs := [.publishFailed e],
              publishCalls := [notificationMessage] }
          | none =>
            { result := .ok cmt, logs := [], publishCalls := [notificationMessage] }

/-! ### Concrete fixtures used by witnesses and counterexamples -/

/-- A concrete comment value, standing for the output of `comment.NewComment`. -/
def cComment : Comment :=
  { id := "c0a80121-7ac0-4e1c-9df2-779c6cf715c3",
    postID := "p1", ownerID := "u1", content := "hello" }

/-- Concrete `CreateComment` parameters. -/
def cParams : CreateCommentServiceParams :=
  { PostID := "p1", OwnerID := "u1", Content := "hello" }

/-- Happy-path external outcomes, except the broker publish fails. -/
def cDepsPublishFail : CreateCommentDeps :=
  { existsRes := .ok true, newCommentRes := .ok cComment, createRes := none,
    marshalRes := none, publishRes := some (.errMsg "broker down") }

/-- Happy-path external outcomes, except `json.Marshal` fails. -/
def cDepsMarshalFail : CreateCommentDeps :=
  { existsRes := .ok true, newCommentRes := .ok cComment, createRes := none,
    marshalRes := some (.errMsg "json: encode"), publishRes := none }

/-- Transport behaviour in which every write succeeds. -/
def wOk : WriteOracle := fun _ _ => true

/-- Transport behaviour in which writes to connection 1 fail and all other
writes succeed. -/
def wFail1 : WriteOracle := fun c _ => !(c == 1)

/-- Service state with clients A = 0 and B = 1 registered. -/
def stAB : NSState := { clients := [(0, true), (1, true)], events := [], closed := [] }

/-- Service state with clients 0, 1 and 2 registered. -/
def stABC : NSState :=
  { clients := [(0, true), (1, true), (2, true)], events := [], closed := [] }

/-- The wire payload of a comment event for postID `"p1"`, actorID `"u1"`. -/
def commentPayload : Msg :=
  encodeNotification { PostID := "p1", OwnerID := "u1", Content := "hi" }

/-! ## C1 — publish failure does not affect comment creation -/

/-- C1: once the comment insert has succeeded, a failure of
`publishNotification` does not change the result of `CreateComment`: the
created comment is still returned with no error, the failure is only
logged, and the publish is attempted exactly once (never retried). -/
theorem createComment_publish_failure_harmless
    (d : CreateCommentDeps) (params : CreateCommentServiceParams) (c : Comment)
    (hex : d.existsRes = .ok true) (hnc : d.newCommentRes = .ok c)
    (hcr : d.createRes = none) :
    (createComment d params).result = .ok c
      ∧ (createComment d params).publishCalls.length = 1
      ∧ ∀ e, d.publishRes = some e →
          (createComment d params).logs = [.publishFailed e] := by
  unfold createComment
  rw [hex, hnc, hcr]
  cases hp : d.publishRes <;> cases hm : d.marshalRes <;>
    simp [hp, hm]

/-- Witness for C1 at the concrete publish-failure fixture. -/
theorem createComment_publish_failure_harmless_witness :
    (createComment cDepsPublishFail cParams).result = .ok cComment
      ∧ (createComment cDepsPublishFail cParams).publishCalls.length = 1
      ∧ ∀ e, cDepsPublishFail.publishRes = some e →
          (createComment cDepsPublishFail cParams).logs = [.publishFailed e] :=
  createComment_publish_failure_harmless cDepsPublishFail cParams cComment
    rfl rfl rfl

/-! ## C6 — what actually happens on a `json.Marshal` failure

The claim says the encoding error is logged and the publish step skipped.
The source (`service.go` line 202) reads `notificationMessage, _ :=
json.Marshal(notification)`: the error is silently discarded, nothing is
logged for it, and `publishNotification` is still called — with the nil
payload. -/

/-- C6 counterexample: with the comment insert succeeded and `json.Marshal`
failing (publish itself succeeding), a payload *is* handed to the gateway
(so the publish step is not skipped) and nothing is logged (so the encoding
error is not logged). -/
theorem createComment_marshal_failure_cex :
    (createComment cDepsMarshalFail cParams).publishCalls ≠ []
      ∧ (createComment cDepsMarshalFail cParams).logs = [] := by
  refine ⟨?_, rfl⟩
  intro h
  exact absurd (congrArg List.length h) (by decide)

/-- C6 amended: a `json.Marshal` failure is non-fatal to the caller (the
created comment is still returned), but the encoding error is silently
discarded rather than logged, and the publish step is not skipped:
`publishNotification` is still invoked, with the nil (empty) payload. -/
theorem createComment_marshal_failure_behavior
    (d : CreateCommentDeps) (params : CreateCommentServiceParams) (c : Comment)
    (e : GoError)
    (hex : d.existsRes = .ok true) (hnc : d.newCommentRes = .ok c)
    (hcr : d.createRes = none) (hm : d.marshalRes = some e) :
    (createComment d params).result = .ok c
      ∧ (createComment d params).publishCalls = [""]
      ∧ (d.publishRes = none → (createComment d params).logs = []) := by
  unfold createComment
  rw [hex, hnc, hcr, hm]
  cases hp : d.publishRes <;> simp [hp]

/-- Witness for the amended C6 at the concrete marshal-failure fixture. -/
theorem createComment_marshal_failure_behavior_witness :
    (createComment cDepsMarshalFail cParams).result = .ok cComment
      ∧ (createComment cDepsMarshalFail cParams).publishCalls = [""]
      ∧ (cDepsMarshalFail.publishRes = none →
          (createComment cDepsMarshalFail cParams).logs = []) :=
  createComment_marshal_failure_behavior cDepsMarshalFail cParams cComment
    (.errMsg "json: encode") rfl rfl rfl rfl

/-! ## C9 — the notification payload is a function of (postID, actorID) -/

/-- C9: two successful comment-creation calls with the same `PostID` and
`OwnerID` hand byte-for-byte identical payloads to `publishNotification`
(the comment `Content`, the created comment and all other external
outcomes may differ), and the payload's `message` field is determined by
the actor alone as `"User " ++ actorID ++ " commented on your post"`. -/
theorem notification_payload_deterministic
    (d1 d2 : CreateCommentDeps) (p1 p2 : CreateCommentServiceParams)
    (c1 c2 : Comment)
    (hex1 : d1.existsRes = .ok true) (hnc1 : d1.newCommentRes = .ok c1)
    (hcr1 : d1.createRes = none) (hm1 : d1.marshalRes = none)
    (hex2 : d2.existsRes = .ok true) (hnc2 : d2.newCommentRes = .ok c2)
    (hcr2 : d2.createRes = none) (hm2 : d2.marshalRes = none)
    (hpost : p1.PostID = p2.PostID) (howner : p1.OwnerID = p2.OwnerID) :
    (createComment d1 p1).publishCalls = (createComment d2 p2).publishCalls
      ∧ (notificationFields p1).lookup "message"
          = some ("User " ++ p1.OwnerID ++ " commented on your post") := by
  have hfields : notificationFields p1 = notificationFields p2 := by
    simp [notificationFields, hpost, howner]
  have hcalls1 : (createComment d1 p1).publishCalls = [encodeNotification p1] := by
    unfold createComment
    rw [hex1, hnc1, hcr1, hm1]
    cases hp : d1.publishRes <;> simp [hp]
  have hcalls2 : (createComment d2 p2).publishCalls = [encodeNotification p2] := by
    unfold createComment
    rw [hex2, hnc2, hcr2, hm2]
    cases hp : d2.publishRes <;> simp [hp]
  refine ⟨?_, rfl⟩
  rw [hcalls1, hcalls2]
  unfold encodeNotification
  rw [hfields]

/-- Witness for C9: same `(PostID, OwnerID)`, different contents and
different created comments give identical publish payloads. -/
theorem notification_payload_deterministic_witness :
    (createComment cDepsPublishFail cParams).publishCalls
        = (createComment
            { existsRes := .ok true,
              newCommentRes := .ok { cComment with content := "other" },
              createRes := none, marshalRes := none, publishRes := none }
            { cParams with Content := "other" }).publishCalls
      ∧ (notificationFields cParams).lookup "message"
          = some ("User " ++ cParams.OwnerID ++ " commented on your post") :=
  notification_payload_deterministic _ _ _ _ _ _
    rfl rfl rfl rfl rfl rfl rfl rfl rfl rfl

/-! ## C5 — upgrade failure (`handleConnections` lines 32–36)

The claim says a failed websocket upgrade terminates only that connection
attempt, leaving other clients, the registry and the broadcaster running.
The source instead calls `log.Fatalf`, which prints and then calls
`os.Exit(1)`, killing the whole notification-service process; the `return`
on line 35 right after it is unreachable, which shows a non-fatal log and
early return was the intent. -/

/-- C5: evaluating the handler at a failing upgrade (with two healthy
clients registered): the code takes the `log.Fatalf` branch, i.e. it
terminates the entire process rather than just the failed attempt. -/
theorem handleConnections_upgrade_failure_fatal :
    handleConnections [(1, true), (2, true)] (.error "bad handshake") []
      = { fatalExit := true, clients := [(1, true), (2, true)], queued := [] } :=
  rfl

/-! ### Helper lemmas about one broadcast cycle -/

theorem attemptEvent_conn (w : WriteOracle) (m : Msg) (p : Nat × Bool) :
    (attemptEvent w m p).conn = p.1 := by
  unfold attemptEvent
  split <;> rfl

theorem attemptEvent_payload (w : WriteOracle) (m : Msg) (p : Nat × Bool) :
    (attemptEvent w m p).payload = m := by
  unfold attemptEvent
  split <;> rfl

/-- The write attempts a single cycle appends to the trace: exactly one per
registry entry, in registry order. -/
theorem dispatch_newEvents (w : WriteOracle) (st : NSState) (m : Msg) :
    (dispatchMessage w st m).events.drop st.events.length
      = st.clients.map (attemptEvent w m) := by
  rw [dispatchMessage_events, List.drop_left]

/-- The connections a cycle attempts to write to are exactly the registry
keys, whatever the message is. -/
theorem dispatch_newEvents_conns (w : WriteOracle) (st : NSState) (m : Msg) :
    ((dispatchMessage w st m).events.drop st.events.length).map WEvent.conn
      = st.clients.map Prod.fst := by
  rw [dispatch_newEvents, List.map_map]
  exact congrArg (st.clients.map ·) (funext fun p => attemptEvent_conn w m p)

/-- A registry entry whose write succeeds produces a `wrote` event. -/
theorem wrote_mem_dispatch (w : WriteOracle) (st : NSState) (m : Msg)
    (p : Nat × Bool) (hp : p ∈ st.clients) (hw : w p.1 m = true) :
    WEvent.wrote p.1 m ∈ (dispatchMessage w st m).events := by
  rw [dispatchMessage_events]
  refine List.mem_append_right _ ?_
  have he : attemptEvent w m p = .wrote p.1 m := by simp [attemptEvent, hw]
  exact he ▸ List.mem_map_of_mem (attemptEvent w m) hp

/-! ## C2 — a failed write prunes the connection before the next cycle -/

/-- C2: during dispatch of one dequeued message, every registry entry whose
write fails is gone from the registry and closed by the end of the cycle
(hence before the next message is dequeued), its write was attempted
exactly once (no retry), and every other entry whose write succeeds still
gets its `wrote` event (delivery to the rest is not aborted). -/
theorem broadcaster_prunes_failed_writes
    (w : WriteOracle) (st : NSState) (m : Msg)
    (hnd : (st.clients.map Prod.fst).Nodup) :
    (∀ p ∈ st.clients, w p.1 m = false →
        p.1 ∉ (dispatchMessage w st m).clients.map Prod.fst
          ∧ p.1 ∈ (dispatchMessage w st m).closed
          ∧ (((dispatchMessage w st m).events.drop st.events.length).map
              WEvent.conn).count p.1 = 1)
      ∧ ∀ p ∈ st.clients, w p.1 m = true →
          WEvent.wrote p.1 m ∈ (dispatchMessage w st m).events := by
  constructor
  · intro p hp hw
    refine ⟨?_, ?_, ?_⟩
    · rw [dispatchMessage_clients]
      intro hmem
      obtain ⟨q, hq, hq1⟩ := List.mem_map.mp hmem
      have hqf := (List.mem_filter.mp hq).2
      rw [hq1, hw] at hqf
      exact Bool.false_ne_true hqf
    · rw [dispatchMessage_closed]
      refine List.mem_append_right _ ?_
      exact List.mem_map_of_mem Prod.fst (List.mem_filter.mpr ⟨hp, by simp [hw]⟩)
    · rw [dispatch_newEvents_conns]
      exact List.count_eq_one_of_mem hnd (List.mem_map_of_mem Prod.fst hp)
  · intro p hp hw
    exact wrote_mem_dispatch w st m p hp hw

/-- Witness for C2: clients 0, 1, 2 registered, the write to client 1
fails: 1 is pruned and closed with a single attempt, 0 still receives. -/
theorem broadcaster_prunes_failed_writes_witness :
    (1 ∉ (dispatchMessage wFail1 stABC "note").clients.map Prod.fst
       ∧ 1 ∈ (dispatchMessage wFail1 stABC "note").closed
       ∧ (((dispatchMessage wFail1 stABC "note").events.drop
            stABC.events.length).map WEvent.conn).count 1 = 1)
      ∧ WEvent.wrote 0 "note" ∈ (dispatchMessage wFail1 stABC "note").events := by
  have h := broadcaster_prunes_failed_writes wFail1 stABC "note" (by decide)
  exact ⟨h.1 (1, true) (by decide) (by decide),
    h.2 (0, true) (by decide) (by decide)⟩

/-! ## C3 — broadcast is untargeted -/

/-- C3: one cycle attempts a write of the dequeued message to exactly the
registry keys — a recipient set independent of the message's `actorID`,
`postID` or anything else in the payload — and every registry entry whose
write succeeds receives the message. -/
theorem broadcast_untargeted (w : WriteOracle) (st : NSState) (m : Msg) :
    ((dispatchMessage w st m).events.drop st.events.length).map WEvent.conn
        = st.clients.map Prod.fst
      ∧ ∀ p ∈ st.clients, w p.1 m = true →
          WEvent.wrote p.1 m ∈ (dispatchMessage w st m).events := by
  refine ⟨dispatch_newEvents_conns w st m, ?_⟩
  intro p hp hw
  exact wrote_mem_dispatch w st m p hp hw

/-- Witness for C3: clients A = 0 and B = 1 both connected, a comment
event for postID `"p1"`, actorID `"u1"` dispatched: both receive the same
payload. -/
theorem broadcast_untargeted_witness :
    WEvent.wrote 0 commentPayload
        ∈ (dispatchMessage wOk stAB commentPayload).events
      ∧ WEvent.wrote 1 commentPayload
        ∈ (dispatchMessage wOk stAB commentPayload).events := by
  have h := broadcast_untargeted wOk stAB commentPayload
  exact ⟨h.2 (0, true) (by decide) rfl, h.2 (1, true) (by decide) rfl⟩

/-! ## C10 — frame condition of one broadcast cycle -/

/-- C10: dispatching one dequeued message mutates the registry only by
removing the entries whose write failed — every entry whose write succeeded
survives unchanged, membership flag included — and every `WriteMessage`
call of the cycle is handed exactly the dequeued payload. -/
theorem broadcast_cycle_frame (w : WriteOracle) (st : NSState) (m : Msg) :
    (dispatchMessage w st m).clients = st.clients.filter (fun p => w p.1 m)
      ∧ (dispatchMessage w st m).events.drop st.events.length
          = st.clients.map (attemptEvent w m)
      ∧ ∀ e ∈ (dispatchMessage w st m).events.drop st.events.length,
          e.payload = m := by
  refine ⟨dispatchMessage_clients w st m, dispatch_newEvents w st m, ?_⟩
  intro e he
  rw [dispatch_newEvents] at he
  obtain ⟨p, _, rfl⟩ := List.mem_map.mp he
  exact attemptEvent_payload w m p

/-- Witness for C10 at the write-to-1-fails fixture. -/
theorem broadcast_cycle_frame_witness :
    (dispatchMessage wFail1 stABC "note").clients
        = stABC.clients.filter (fun p => wFail1 p.1 "note")
      ∧ WEvent.payload (WEvent.wrote 0 "note") = "note" := by
  have h := broadcast_cycle_frame wFail1 stABC "note"
  exact ⟨h.1, h.2.2 (WEvent.wrote 0 "note") (by decide)⟩

/-! ## C4 — each connection receives messages in enqueue order -/

theorem deliveredTo_append (c : Nat) (evs1 evs2 : List WEvent) :
    deliveredTo c (evs1 ++ evs2) = deliveredTo c evs1 ++ deliveredTo c evs2 :=
  List.filterMap_append evs1 evs2 _

theorem deliveredTo_cons_wrote_eq (c : Nat) (m : Msg) (evs : List WEvent) :
    deliveredTo c (.wrote c m :: evs) = m :: deliveredTo c evs := by
  simp [deliveredTo, List.filterMap_cons]

theorem deliveredTo_cons_wrote_ne {c c' : Nat} (h : c' ≠ c) (m : Msg)
    (evs : List WEvent) :
    deliveredTo c (.wrote c' m :: evs) = deliveredTo c evs := by
  simp [deliveredTo, List.filterMap_cons, h]

theorem deliveredTo_cons_failed (c c' : Nat) (m : Msg) (evs : List WEvent) :
    deliveredTo c (.failedWrite c' m :: evs) = deliveredTo c evs := by
  simp [deliveredTo, List.filterMap_cons]

theorem deliveredTo_attempts_of_not_mem {c : Nat} (w : WriteOracle) (m : Msg)
    {l : List (Nat × Bool)} (h : c ∉ l.map Prod.fst) :
    deliveredTo c (l.map (attemptEvent w m)) = [] := by
  induction l with
  | nil => rfl
  | cons q rest ih =>
    simp only [List.map_cons, List.mem_cons] at h
    push_neg at h
    rw [List.map_cons]
    by_cases hw : w q.1 m
    · rw [show attemptEvent w m q = .wrote q.1 m from by simp [attemptEvent, hw]]
      rw [deliveredTo_cons_wrote_ne (Ne.symm h.1) m, ih h.2]
    · rw [show attemptEvent w m q = .failedWrite q.1 m from by simp [attemptEvent, hw]]
      rw [deliveredTo_cons_failed, ih h.2]

/-- In one cycle over a registry with distinct keys, a given connection is
written the dequeued message at most once: the trace it receives is `[]`
or `[m]`. -/
theorem deliveredTo_attempts (c : Nat) (w : WriteOracle) (m : Msg)
    {l : List (Nat × Bool)} (hnd : (l.map Prod.fst).Nodup) :
    deliveredTo c (l.map (attemptEvent w m)) = []
      ∨ deliveredTo c (l.map (attemptEvent w m)) = [m] := by
  induction l with
  | nil => exact Or.inl rfl
  | cons q rest ih =>
    rw [List.map_cons] at hnd
    have hq := (List.nodup_cons.mp hnd).1
    have hrest := (List.nodup_cons.mp hnd).2
    rw [List.map_cons]
    by_cases hw : w q.1 m
    · rw [show attemptEvent w m q = .wrote q.1 m from by simp [attemptEvent, hw]]
      by_cases hqc : q.1 = c
      · subst hqc
        rw [deliveredTo_cons_wrote_eq, deliveredTo_attempts_of_not_mem w m hq]
        exact Or.inr rfl
      · rw [deliveredTo_cons_wrote_ne hqc m]
        exact ih hrest
    · rw [show attemptEvent w m q = .failedWrite q.1 m from by simp [attemptEvent, hw]]
      rw [deliveredTo_cons_failed]
      exact ih hrest

/-- C4: over any queue `ms` of messages, the single broadcaster loop
dispatches serially in enqueue order, so the messages any one connection
`c` receives extend its previous deliveries by a subsequence of `ms` taken
in enqueue order (nothing is claimed about interleaving across distinct
connections). -/
theorem connection_receives_in_enqueue_order
    (w : WriteOracle) (st : NSState) (ms : List Msg) (c : Nat)
    (hnd : (st.clients.map Prod.fst).Nodup) :
    ∃ l, l.Sublist ms
      ∧ deliveredTo c (handleMessages w st ms).events
          = deliveredTo c st.events ++ l := by
  induction ms generalizing st with
  | nil => exact ⟨[], List.Sublist.refl [], (List.append_nil _).symm⟩
  | cons m ms ih =>
    have hnd' : ((dispatchMessage w st m).clients.map Prod.fst).Nodup := by
      rw [dispatchMessage_clients]
      exact hnd.sublist ((List.filter_sublist st.clients).map Prod.fst)
    obtain ⟨l, hsub, heq⟩ := ih (dispatchMessage w st m) hnd'
    have hev : deliveredTo c (dispatchMessage w st m).events
        = deliveredTo c st.events
            ++ deliveredTo c (st.clients.map (attemptEvent w m)) := by
      rw [dispatchMessage_events, deliveredTo_append]
    rcases deliveredTo_attempts c w m hnd with hseg | hseg
    · refine ⟨l, hsub.cons m, ?_⟩
      show deliveredTo c (handleMessages w (dispatchMessage w st m) ms).events = _
      rw [heq, hev, hseg, List.append_nil]
    · refine ⟨m :: l, hsub.cons₂ m, ?_⟩
      show deliveredTo c (handleMessages w (dispatchMessage w st m) ms).events = _
      rw [heq, hev, hseg, List.append_assoc]
      rfl

/-- Witness for C4 at the write-to-1-fails fixture with two messages. -/
theorem connection_receives_in_enqueue_order_witness :
    ∃ l, l.Sublist ["n1", "n2"]
      ∧ deliveredTo 0 (handleMessages wFail1 stABC ["n1", "n2"]).events
          = deliveredTo 0 stABC.events ++ l :=
  connection_receives_in_enqueue_order wFail1 stABC ["n1", "n2"] 0 (by decide)

/-! ## C8 — client-sent frames are rebroadcast unmodified -/

theorem readLoop_all_ok (ws : Nat) (cs : List (Nat × Bool)) (fs : List Msg) :
    readLoop ws cs (fs.map Except.ok) = (cs, fs) := by
  induction fs with
  | nil => rfl
  | cons f fs ih => simp [readLoop, ih]

/-- C8: every text frame a connected client sends while open is pushed,
unmodified and in order, onto the internal broadcast queue by the
connection handler's read loop, and the broadcaster delivers such a frame
through the same dispatch path as server-originated events to every
registered connection whose write succeeds (the sender's own registry
entry included — the code does not exclude it). -/
theorem client_frames_rebroadcast
    (ws : Nat) (fs : List Msg) (w : WriteOracle) (st : NSState) :
    (readLoop ws st.clients (fs.map Except.ok)).2 = fs
      ∧ ∀ f ∈ fs, ∀ p ∈ st.clients, w p.1 f = true →
          WEvent.wrote p.1 f ∈ (dispatchMessage w st f).events := by
  refine ⟨by rw [readLoop_all_ok], ?_⟩
  intro f _ p hp hw
  exact wrote_mem_dispatch w st f p hp hw

/-- Witness for C8: client 0 sends `"ping"` with clients 0, 1, 2
registered: the queue gets exactly `["ping"]` and the other clients 1 and 2
both receive `"ping"`. -/
theorem client_frames_rebroadcast_witness :
    (readLoop 0 stABC.clients (["ping"].map Except.ok)).2 = ["ping"]
      ∧ WEvent.wrote 1 "ping" ∈ (dispatchMessage wOk stABC "ping").events
      ∧ WEvent.wrote 2 "ping" ∈ (dispatchMessage wOk stABC "ping").events := by
  have h := client_frames_rebroadcast 0 ["ping"] wOk stABC
  exact ⟨h.1, h.2 "ping" (by simp) (1, true) (by decide) rfl,
    h.2 "ping" (by simp) (2, true) (by decide) rfl⟩

/-! ## C7 — round-trip of the event encoding

Encoding a comment event and decoding the resulting JSON payload
reproduces the four fields, for any identifiers made of characters the
encoder emits literally (which covers every UUID string). -/

theorem plainChar_ne_quote {c : Char} (h : plainChar c = true) : c ≠ '"' := by
  simp only [plainChar, Bool.and_eq_true, Bool.not_eq_true',
    decide_eq_false_iff_not, decide_eq_true_eq] at h
  exact h.1.1.1.1.1.1.1

theorem goEscapeChar_plain {c : Char} (h : plainChar c = true) :
    goEscapeChar c = [c] := by
  simp only [plainChar, Bool.and_eq_true, Bool.not_eq_true',
    decide_eq_false_iff_not, decide_eq_true_eq] at h
  obtain ⟨⟨⟨⟨⟨⟨⟨h1, h2⟩, h3⟩, h4⟩, h5⟩, h6⟩, h7⟩, h8⟩ := h
  have hn : ¬(c = '\n') := fun hc => absurd (hc ▸ h6) (by decide)
  have hr : ¬(c = '\r') := fun hc => absurd (hc ▸ h6) (by decide)
  have ht : ¬(c = '\t') := fun hc => absurd (hc ▸ h6) (by decide)
  have hbig : ¬(c.toNat < 0x20 ∨ c = '<' ∨ c = '>' ∨ c = '&'
      ∨ c.toNat = 0x2028 ∨ c.toNat = 0x2029) := by
    push_neg
    exact ⟨h6, h3, h4, h5, h7, h8⟩
  unfold goEscapeChar
  rw [if_neg h1, if_neg h2, if_neg hn, if_neg hr, if_neg ht, if_neg hbig]

theorem escape_list_plain {l : List Char} (h : ∀ c ∈ l, plainChar c = true) :
    (l.map goEscapeChar).flatten = l := by
  induction l with
  | nil => rfl
  | cons c cs ih =>
    rw [List.map_cons, List.flatten_cons,
      goEscapeChar_plain (h c (List.mem_cons_self c cs)),
      ih (fun x hx => h x (List.mem_cons_of_mem c hx))]
    rfl

theorem goEscapeString_plain {s : String} (h : plainString s = true) :
    goEscapeString s = s.data :=
  escape_list_plain (List.all_eq_true.mp h)

theorem takeWhile_append_stop {p : Char → Bool} {l : List Char}
    (hl : ∀ c ∈ l, p c = true) {x : Char} (hx : p x = false) (r : List Char) :
    (l ++ x :: r).takeWhile p = l := by
  induction l with
  | nil => simp [List.takeWhile_cons, hx]
  | cons c cs ih =>
    rw [List.cons_append, List.takeWhile_cons,
      hl c (List.mem_cons_self c cs), if_pos rfl,
      ih (fun a ha => hl a (List.mem_cons_of_mem c ha))]

theorem dropWhile_append_stop {p : Char → Bool} {l : List Char}
    (hl : ∀ c ∈ l, p c = true) {x : Char} (hx : p x = false) (r : List Char) :
    (l ++ x :: r).dropWhile p = x :: r := by
  induction l with
  | nil => simp [List.dropWhile_cons, hx]
  | cons c cs ih =>
    rw [List.cons_append, List.dropWhile_cons,
      hl c (List.mem_cons_self c cs), if_pos rfl,
      ih (fun a ha => hl a (List.mem_cons_of_mem c ha))]

theorem parseQuoted_quote {v : List Char} (hv : ∀ c ∈ v, plainChar c = true)
    (rest : List Char) :
    parseQuoted ('"' :: (v ++ '"' :: rest)) = some (v, rest) := by
  have hp : ∀ c ∈ v, (decide (c ≠ '"')) = true :=
    fun c hc => decide_eq_true (plainChar_ne_quote (hv c hc))
  have hq : (decide (('"' : Char) ≠ '"')) = false := by decide
  simp only [parseQuoted]
  rw [dropWhile_append_stop hp hq, takeWhile_append_stop hp hq]
  simp

theorem expectChar_eq (c : Char) (r : List Char) : expectChar c (c :: r) = some r := by
  simp [expectChar]

theorem parseMember_memberChars {k v : String}
    (hk : plainString k = true) (hv : plainString v = true) (rest : List Char) :
    parseMember (memberChars (k, v) ++ rest) = some ((k, v), rest) := by
  have hkc : ∀ c ∈ k.data, plainChar c = true := List.all_eq_true.mp hk
  have hvc : ∀ c ∈ v.data, plainChar c = true := List.all_eq_true.mp hv
  have h1 : memberChars (k, v) ++ rest
      = '"' :: (k.data ++ '"' :: (':' :: ('"' :: (v.data ++ '"' :: rest)))) := by
    simp [memberChars, quoteChars, goEscapeString_plain hk,
      goEscapeString_plain hv, List.append_assoc]
  rw [h1]
  unfold parseMember
  rw [parseQuoted_quote hkc]
  simp only [Option.bind_eq_bind, Option.some_bind]
  rw [expectChar_eq]
  simp only [Option.some_bind]
  rw [parseQuoted_quote hvc]
  rfl

theorem data_append (a b : String) : (a ++ b).data = a.data ++ b.data := by
  cases a
  cases b
  rfl

theorem plainString_append {a b : String} (ha : plainString a = true)
    (hb : plainString b = true) : plainString (a ++ b) = true := by
  unfold plainString at ha hb ⊢
  rw [data_append, List.all_append, ha, hb]
  rfl

theorem decodeFields_jsonObject (k1 v1 k2 v2 k3 v3 k4 v4 : String)
    (hk1 : plainString k1 = true) (hv1 : plainString v1 = true)
    (hk2 : plainString k2 = true) (hv2 : plainString v2 = true)
    (hk3 : plainString k3 = true) (hv3 : plainString v3 = true)
    (hk4 : plainString k4 = true) (hv4 : plainString v4 = true) :
    decodeFields (jsonObject [(k1, v1), (k2, v2), (k3, v3), (k4, v4)])
      = some [(k1, v1), (k2, v2), (k3, v3), (k4, v4)] := by
  have hdata : (jsonObject [(k1, v1), (k2, v2), (k3, v3), (k4, v4)]).data
      = '\x7b' :: (memberChars (k1, v1)
          ++ ',' :: (memberChars (k2, v2)
          ++ ',' :: (memberChars (k3, v3)
          ++ ',' :: (memberChars (k4, v4) ++ ['\x7d'])))) := by
    simp [jsonObject, joinComma, List.append_assoc]
  unfold decodeFields
  rw [hdata, expectChar_eq]
  simp only [Option.bind_eq_bind, Option.some_bind]
  rw [parseMember_memberChars hk1 hv1]
  simp only [Option.some_bind]
  rw [expectChar_eq]
  simp only [Option.some_bind]
  rw [parseMember_memberChars hk2 hv2]
  simp only [Option.some_bind]
  rw [expectChar_eq]
  simp only [Option.some_bind]
  rw [parseMember_memberChars hk3 hv3]
  simp only [Option.some_bind]
  rw [expectChar_eq]
  simp only [Option.some_bind]
  rw [parseMember_memberChars hk4 hv4]
  simp

/-- C7: encoding the comment event with kind `"comment"`, postID `P`,
actorID `U` and message `"User " ++ U ++ " commented on your post"`, then
decoding the JSON payload on the consumer side, reproduces the identical
four fields.  The hypotheses ask the identifiers to consist of characters
the encoder emits literally, which holds for every UUID string. -/
theorem notification_roundtrip (P U content : String)
    (hP : plainString P = true) (hU : plainString U = true) :
    decodeEvent (encodeNotification { PostID := P, OwnerID := U, Content := content })
      = some { kind := "comment", postID := P, actorID := U,
               message := "User " ++ U ++ " commented on your post" } := by
  have hmsg : plainString ("User " ++ U ++ " commented on your post") = true :=
    plainString_append (plainString_append (by decide) hU) (by decide)
  unfold decodeEvent
  rw [show encodeNotification { PostID := P, OwnerID := U, Content := content }
      = jsonObject [("message", "User " ++ U ++ " commented on your post"),
                    ("postId", P), ("type", "comment"), ("userId", U)] from rfl]
  rw [decodeFields_jsonObject _ _ _ _ _ _ _ _ (by decide) hmsg (by decide) hP
    (by decide) (by decide) (by decide) hU]
  rfl

/-- Witness for C7 at two concrete UUID strings. -/
theorem notification_roundtrip_witness :
    decodeEvent (encodeNotification
      { PostID := "7d793037-a076-4b4c-b3a9-33c1c9c3c9d1",
        OwnerID := "a8098c1a-f86e-11da-bd1a-00112444be1e",
        Content := "hi" })
      = some { kind := "comment",
               postID := "7d793037-a076-4b4c-b3a9-33c1c9c3c9d1",
               actorID := "a8098c1a-f86e-11da-bd1a-00112444be1e",
               message := "User " ++ "a8098c1a-f86e-11da-bd1a-00112444be1e"
                 ++ " commented on your post" } :=
  notification_roundtrip "7d793037-a076-4b4c-b3a9-33c1c9c3c9d1"
    "a8098c1a-f86e-11da-bd1a-00112444be1e" "hi" (by decide) (by decide)

end QchangTweet
